import Mathlib

/-!
Shallow embedding of `scripts/test_mcp_client.py` from the RustyMail
repository: the MCP conformance tester (`RustyMailMCPTester`) and the
chatbot consistency tester (`EmailAssistantChatbotTester`).  Strings are
modelled as lists of characters; Python text operations used by the script
(`str.split`, `str.join`, `str.startswith`, `in`, `str.lower`,
`re.findall` with the pattern for word-bounded digit runs) are embedded as
executable functions on `List Char`.
-/

/-- Strings of the embedded program are lists of characters. -/
abbrev Str := List Char

/-- Coerce a Lean string literal to the embedded representation. -/
def strOf (s : String) : Str := s.data

/-- Decimal digit test, as in the character class backslash-d of the Python
regular expression (ASCII digits). -/
def isDigitChar (c : Char) : Bool := c.isDigit

/-- Word-character test, as in the character class backslash-w (ASCII
fragment: letters, digits, underscore). -/
def isWordChar (c : Char) : Bool := c.isAlphanum || c == '_'

/-- Scanner for the Python call
`re.findall` with pattern word-boundary, one or more digits, word-boundary
(line 454 of `test_mcp_client.py`): collects every maximal run of decimal
digits whose left neighbour (if any) and right neighbour (if any) are not
word characters.  `prevW` records whether the previous character was a word
character; `cur` is the digit run currently being read (in reverse), which
is only ever open when it started at a word boundary. -/
def scanNums : Bool → Option Str → Str → List Str
  | _, some r, [] => [r.reverse]
  | _, none, [] => []
  | prevW, cur, c :: cs =>
    if isDigitChar c then
      match cur with
      | some r => scanNums true (some (c :: r)) cs
      | none =>
        if prevW then scanNums true none cs
        else scanNums true (some [c]) cs
    else
      match cur with
      | some r =>
        if isWordChar c then scanNums true none cs
        else r.reverse :: scanNums false none cs
      | none => scanNums (isWordChar c) none cs

/-- All word-bounded digit runs of a text, first to last: the embedded
`re.findall` result (`numbers` at line 454). -/
def findNumbers (text : Str) : List Str := scanNums false none text

/-- Numeric value of a digit string: the embedded `int(numbers[0])`
(line 460). -/
def digitsToNat (s : Str) : Nat :=
  s.foldl (fun n c => 10 * n + (c.toNat - Char.toNat '0')) 0

/-- Embedded `chatbot_text.split` on a newline (line 451): Python
semantics, so the empty text yields one empty line and a trailing newline
yields a trailing empty line. -/
def splitLines : Str → List Str
  | [] => [[]]
  | c :: cs =>
    if c = '\n' then [] :: splitLines cs
    else
      match splitLines cs with
      | [] => [[c]]
      | l :: ls => (c :: l) :: ls

/-- Embedded newline `join` (line 452). -/
def joinLines (ls : List Str) : Str := List.intercalate [ '\n' ] ls

/-- The provider-tag marker the script filters on (line 452). -/
def providerTag : Str := strOf "[Provider:"

/-- A line survives the filter at line 452 iff it does not start with the
provider-tag marker. -/
def keepLine (l : Str) : Bool := ! List.isPrefixOf providerTag l

/-- Lines 451-452: drop every line starting with the provider tag and
rejoin the remainder with newlines. -/
def stripProvider (text : Str) : Str :=
  joinLines ((splitLines text).filter keepLine)

/-- Lines 450-460: the chatbot-side fact extraction.  Returns the value of
the first word-bounded digit run of the provider-stripped text, or `none`
when no digit run exists (the code then logs a failure and returns). -/
def extractChatbotCount (text : Str) : Option Nat :=
  match findNumbers (stripProvider text) with
  | [] => none
  | n :: _ => some (digitsToNat n)

/-- The fixed catalog of 18 expected tool names (lines 51-70). -/
def EXPECTED_TOOLS : List Str :=
  [strOf "list_folders",
   strOf "list_folders_hierarchical",
   strOf "search_emails",
   strOf "fetch_emails_with_mime",
   strOf "atomic_move_message",
   strOf "atomic_batch_move",
   strOf "mark_as_deleted",
   strOf "delete_messages",
   strOf "undelete_messages",
   strOf "expunge",
   strOf "list_cached_emails",
   strOf "get_email_by_uid",
   strOf "get_email_by_index",
   strOf "count_emails_in_folder",
   strOf "get_folder_stats",
   strOf "search_cached_emails",
   strOf "list_accounts",
   strOf "set_current_account"]

/-- The shared result log `test_results` (lines 81-85): counters and the
accumulated error strings. -/
structure TestResults where
  passed : Nat
  failed : Nat
  errors : List Str
deriving DecidableEq, Repr

/-- The empty log a tester starts with. -/
def emptyResults : TestResults := ⟨0, 0, []⟩

/-- `log_test` (lines 145-153): a pass bumps `passed`; a failure bumps
`failed` and appends a combined test-name and error string. -/
def logTest (name : Str) (ok : Bool) (err : Str) (r : TestResults) : TestResults :=
  if ok then { r with passed := r.passed + 1 }
  else { r with failed := r.failed + 1,
                errors := r.errors ++ [name ++ strOf ": " ++ err] }

/-- Decimal rendering of a natural number, the embedded Python string
interpolation of an integer. -/
def natToChars (n : Nat) : Str := Nat.toDigits 10 n

/-- Embedded `", ".join`. -/
def commaJoin (ls : List Str) : Str := List.intercalate (strOf ", ") ls

/-- Names of `expected` missing from `advertised`
(`set(EXPECTED_TOOLS) - set(tools)`, line 197), by membership. -/
def missingOf (expected advertised : List Str) : List Str :=
  expected.filter (fun t => ! advertised.contains t)

/-- Names of `advertised` outside `expected`
(`set(tools) - set(EXPECTED_TOOLS)`, line 198), by membership. -/
def extraOf (expected advertised : List Str) : List Str :=
  advertised.filter (fun t => ! expected.contains t)

/-- `test_list_tools` (lines 170-222), given the advertised names: first
the cardinality check — on mismatch it logs a single Tool-count failure
and returns `False` at once (line 192), so the set differences are never
computed — then the missing-names check, then the extra-names check, then
the success log.  Python iterates the difference sets in unspecified hash
order; the joined name lists here keep first-occurrence order, which every
claim-relevant observation (emptiness, counts, the count-mismatch message)
is independent of. -/
def test_list_tools (tools : List Str) (r : TestResults) : Bool × TestResults :=
  if tools.length ≠ EXPECTED_TOOLS.length then
    (false, logTest (strOf "Tool count") false
      (strOf "Expected " ++ natToChars EXPECTED_TOOLS.length
        ++ strOf " tools, got " ++ natToChars tools.length) r)
  else
    let r1 := logTest (strOf "Tool count") true [] r
    let missing := missingOf EXPECTED_TOOLS tools
    let extra := extraOf EXPECTED_TOOLS tools
    if missing ≠ [] then
      (false, logTest (strOf "Missing tools") false
        (strOf "Missing: " ++ commaJoin missing) r1)
    else if extra ≠ [] then
      (false, logTest (strOf "Extra tools") false
        (strOf "Unexpected: " ++ commaJoin extra) r1)
    else
      (true, logTest (strOf "Tool names match") true [] r1)

/-- A Python value in `tool.inputSchema` position: `None`, a dict (only
its key set matters to the script), or any other value carrying its
truthiness. -/
inductive PyVal where
  | pynone
  | pydict (keys : List Str)
  | pyother (truthy : Bool)
deriving DecidableEq, Repr

/-- Python truth-test `not v` used at line 244: `None`, the empty dict and
falsy scalars are falsy. -/
def pyFalsy : PyVal → Bool
  | .pynone => true
  | .pydict keys => keys.isEmpty
  | .pyother t => !t

/-- A tool descriptor as the script reads it: a name and an input
schema. -/
structure Tool where
  name : Str
  inputSchema : PyVal
deriving DecidableEq, Repr

/-- The per-tool checks of `test_tool_schemas` (lines 238-262), in source
order: empty name, falsy `inputSchema`, non-dict schema, missing
`properties` key.  Returns the failure reason, or `none` when the tool is
valid. -/
def schemaVerdict (t : Tool) : Option Str :=
  if t.name.isEmpty then some (strOf "Missing name")
  else if pyFalsy t.inputSchema then some (strOf "Missing inputSchema")
  else
    match t.inputSchema with
    | .pydict keys =>
      if keys.contains (strOf "properties") then none
      else some (strOf "Missing properties")
    | _ => some (strOf "Invalid schema type")

/-- One iteration of the loop in `test_tool_schemas`: log the verdict for
one tool independently of the others. -/
def schemaCheckTool (t : Tool) (r : TestResults) : Bool × TestResults :=
  match schemaVerdict t with
  | none => (true, logTest (strOf "Schema: " ++ t.name) true [] r)
  | some reason => (false, logTest (strOf "Schema: " ++ t.name) false reason r)

/-- `test_tool_schemas` (lines 224-268): every advertised tool is checked
and logged; `all_valid` is the conjunction of the per-tool verdicts, and a
failing tool only `continue`s the loop. -/
def test_tool_schemas : List Tool → TestResults → Bool × TestResults
  | [], r => (true, r)
  | t :: ts, r =>
    let p := schemaCheckTool t r
    let q := test_tool_schemas ts p.2
    (p.1 && q.1, q.2)

/-- Decimal rendering of an integer, the embedded Python string
interpolation at line 490. -/
def intToChars (m : Int) : Str :=
  if m < 0 then '-' :: natToChars m.natAbs else natToChars m.natAbs

/-- The mismatch detail the script builds at line 490:
it labels the direct-tool value `MCP=`. -/
def mismatchDetail (a : Nat) (m : Int) : Str :=
  strOf "Mismatch: chatbot=" ++ natToChars a ++ strOf ", MCP=" ++ intToChars m

/-- Outcome of one check: its verdict and the detail string it logs on
failure. -/
structure CheckOutcome where
  passed : Bool
  detail : Str
deriving DecidableEq, Repr

/-- Lines 479-496 of `test_chatbot_email_count_accuracy`: compare the
extracted chatbot count against the direct-tool count.  A missing
direct-tool count fails; otherwise the two integers are compared with bare
inequality — no coercion, rounding or tolerance — and a mismatch fails
with both values in the detail. -/
def emailCountCompare (chatbotCount : Nat) (mcpCount : Option Int) : CheckOutcome :=
  match mcpCount with
  | none => ⟨false, strOf "MCP returned no count"⟩
  | some m =>
    if (chatbotCount : Int) = m then ⟨true, []⟩
    else ⟨false, mismatchDetail chatbotCount m⟩

/-- Lines 450-496 end to end: extract from the chatbot text, then compare
with the direct-tool count; no extractable number is an extraction
failure (line 457), never a value. -/
def emailCountAccuracy (chatbotText : Str) (mcpCount : Option Int) : CheckOutcome :=
  match extractChatbotCount chatbotText with
  | none => ⟨false, strOf "No number in response: " ++ chatbotText.take 100⟩
  | some c => emailCountCompare c mcpCount

/-- ASCII lower-casing of one character, the fragment of `str.lower` the
script's error messages exercise. -/
def asciiLower (c : Char) : Char :=
  if 'A' ≤ c ∧ c ≤ 'Z' then Char.ofNat (c.toNat + 32) else c

/-- Embedded `str.lower` (ASCII fragment). -/
def lowerStr (s : Str) : Str := s.map asciiLower

/-- Embedded Python substring test `needle in hay`. -/
def hasSubstr (needle : Str) : Str → Bool
  | [] => needle.isEmpty
  | c :: cs => List.isPrefixOf needle (c :: cs) || hasSubstr needle cs

/-- The exception handler of `test_simple_tool_call` (lines 285-292): an
exception whose text contains `No accounts configured`, or contains
`account` after lower-casing, is logged as a pass of the
`list_accounts` call; any other exception text is logged as a failure of
the simple-tool-call check. -/
def simpleToolCallOnExc (msg : Str) (r : TestResults) : Bool × TestResults :=
  if hasSubstr (strOf "No accounts configured") msg
      || hasSubstr (strOf "account") (lowerStr msg) then
    (true, logTest (strOf "list_accounts tool call") true [] r)
  else
    (false, logTest (strOf "Simple tool call") false msg r)

/-- A check as the orchestrator sees it: it transforms the shared result
log (all its `log_test` calls) and reports whether it escaped with an
exception instead of returning. -/
abbrev CheckFn := TestResults → TestResults × Bool

/-- The `asyncio.gather` call with `return_exceptions=True` (line 311):
every check runs to completion regardless of its siblings; the log
mutations thread through, and the number of checks that raised is
collected alongside. -/
def gatherResults : List CheckFn → TestResults → TestResults × Nat
  | [], r => (r, 0)
  | c :: cs, r =>
    let p := c r
    let q := gatherResults cs p.1
    (q.1, q.2 + (if p.2 then 1 else 0))

/-- The loop at lines 314-317: each exception collected by `gather` bumps
the failed counter — and only the counter; nothing is appended to the
error list on this path. -/
def bumpFailures (p : TestResults × Nat) : TestResults :=
  { p.1 with failed := p.1.failed + p.2 }

/-- Line 331: the suite verdict. -/
def suiteSuccess (r : TestResults) : Bool := r.failed == 0

/-- The `Running` phase of `run_all_tests` (lines 311-337): gather the
checks, count the raised exceptions into `failed`, and derive the
verdict. -/
def runChecksPhase (checks : List CheckFn) (r : TestResults) : Bool × TestResults :=
  let rf := bumpFailures (gatherResults checks r)
  (suiteSuccess rf, rf)

/-- Line 692 of `main`: the process exit status from the suite verdict. -/
def exitCode (b : Bool) : Nat := if b then 0 else 1

/-- State of one tester run: the shared result log and whether a protocol
session is currently open. -/
structure Harness where
  results : TestResults
  sessionOpen : Bool
deriving DecidableEq, Repr

/-- `cleanup` (lines 137-143): closing the exit stack may itself fail
(`acloseResult` is the outcome of `exit_stack.aclose()`); on success the
session reference is cleared, and an exception is caught and logged —
`cleanup` returns normally on every input, including a harness whose
session was never opened or is already closed. -/
def cleanup (acloseResult : Except Str Unit) (h : Harness) : Harness :=
  match acloseResult with
  | .ok _ => { h with sessionOpen := false }
  | .error _ => h

/-- `run_all_tests` (lines 294-340): `initialize` may raise, which is
fatal and skips the checks; otherwise the session opens and the checks
run.  The `finally` clause applies `cleanup` on both paths before the
call returns its verdict or re-raises the initialization error. -/
def run_all_tests (initResult : Except Str Unit) (checks : List CheckFn)
    (acloseResult : Except Str Unit) (h : Harness) : Except Str Bool × Harness :=
  match initResult with
  | .error e => (.error e, cleanup acloseResult h)
  | .ok _ =>
    let h1 : Harness := { h with sessionOpen := true }
    let p := runChecksPhase checks h1.results
    (.ok p.1, cleanup acloseResult { h1 with results := p.2 })

/-- One `log_test` call a check performs: test name, verdict, error
text. -/
abbrev LogStep := Str × Bool × Str

/-- Replay one logged step against the shared result log. -/
def applyStep (r : TestResults) (s : LogStep) : TestResults :=
  logTest s.1 s.2.1 s.2.2 r

/-- Replay the `log_test` calls of one check in order. -/
def appliesLog (steps : List LogStep) (r : TestResults) : TestResults :=
  steps.foldl applyStep r

/-- A check of the source suite as the orchestrator runs it: it performs a
sequence of `log_test` calls and either returns or escapes with an
exception. -/
def loggedCheck (c : List LogStep × Bool) : CheckFn :=
  fun r => (appliesLog c.1 r, c.2)

/-- Number of failing `log_test` calls among a check's steps. -/
def stepFailures (steps : List LogStep) : Nat :=
  (steps.filter (fun s => !s.2.1)).length

/-- Number of passing `log_test` calls among a check's steps. -/
def stepPasses (steps : List LogStep) : Nat :=
  (steps.filter (fun s => s.2.1)).length

/-- The `Running` phase over source-shaped checks: gather them all, then
add the exception count to the failed counter (lines 311-317). -/
def runSuite (cs : List (List LogStep × Bool)) (r : TestResults) : TestResults :=
  bumpFailures (gatherResults (cs.map loggedCheck) r)

/-- A tool whose schema is a dict with a `properties` key: passes every
per-tool check. -/
def wellFormedTool (n : Str) : Tool := ⟨n, .pydict [strOf "properties"]⟩

/-- The `expunge` tool advertised with a non-empty schema lacking the
`properties` key. -/
def badSchemaTool : Tool := ⟨strOf "expunge", .pydict [strOf "type"]⟩

/-- The first nine expected tools, all well formed, for the 18-tool
scenario. -/
def scenarioPre : List Tool := (EXPECTED_TOOLS.take 9).map wellFormedTool

/-- The last eight expected tools, all well formed, for the 18-tool
scenario. -/
def scenarioPost : List Tool := (EXPECTED_TOOLS.drop 10).map wellFormedTool

/-! ## Theorems -/

/-- Claim C6: the suite verdict of `run_all_tests` is `true` iff the
failed counter is zero at report time, and `main` maps that verdict to
process exit status `0` exactly when it is `true` and `1` otherwise. -/
theorem c6_verdict_and_exit (checks : List CheckFn) (r : TestResults) :
    ((runChecksPhase checks r).1 = true ↔ (runChecksPhase checks r).2.failed = 0) ∧
    (exitCode (runChecksPhase checks r).1 = 0 ↔ (runChecksPhase checks r).1 = true) ∧
    ((runChecksPhase checks r).1 = false → exitCode (runChecksPhase checks r).1 = 1) := by
  refine ⟨?_, ?_, ?_⟩
  · simp [runChecksPhase, suiteSuccess]
  · cases h : (runChecksPhase checks r).1 <;> simp [exitCode, h]
  · intro h
    simp [exitCode, h]

/-- Witness for C6 at a one-check suite whose check fails. -/
theorem c6_witness :
    exitCode (runChecksPhase [loggedCheck ([(strOf "x", false, [])], false)] emptyResults).1 = 1 :=
  (c6_verdict_and_exit [loggedCheck ([(strOf "x", false, [])], false)] emptyResults).2.2 (by rfl)

/-- Claim C1 counterexample: at chatbot count 42 and direct count 41 the
check fails, but the recorded detail reads `Mismatch: chatbot=42, MCP=41`
— the direct value is labelled `MCP=`, not `direct=` as the claimed
format requires. -/
theorem c1_counterexample :
    (emailCountCompare 42 (some 41)).passed = false ∧
    (emailCountCompare 42 (some 41)).detail = strOf "Mismatch: chatbot=42, MCP=41" ∧
    (emailCountCompare 42 (some 41)).detail ≠ strOf "Mismatch: chatbot=42, direct=41" := by
  decide

/-- Claim C1 (amended): the consistency check passes iff the
chatbot-extracted integer exactly equals the direct-tool integer, with no
coercion or rounding; on inequality — including a one-unit difference —
it fails with a detail carrying both values in the form
`Mismatch: chatbot=a, MCP=b`. -/
theorem c1_pass_iff_equal (c : Nat) (m : Int) :
    ((emailCountCompare c (some m)).passed = true ↔ (c : Int) = m) ∧
    ((c : Int) ≠ m →
      (emailCountCompare c (some m)).passed = false ∧
      (emailCountCompare c (some m)).detail =
        strOf "Mismatch: chatbot=" ++ natToChars c ++ strOf ", MCP=" ++ intToChars m) := by
  unfold emailCountCompare mismatchDetail
  by_cases h : (c : Int) = m <;> simp [h]

/-- Witness for C1 at the one-unit difference 42 versus 43. -/
theorem c1_witness :
    (emailCountCompare 42 (some 43)).passed = false ∧
    (emailCountCompare 42 (some 43)).detail =
      strOf "Mismatch: chatbot=" ++ natToChars 42 ++ strOf ", MCP=" ++ intToChars 43 :=
  (c1_pass_iff_equal 42 43).2 (by decide)

/-- Claim C2 counterexample: with an empty advertised catalog the check
logs the single count-mismatch failure and returns at once — the error
list holds exactly that entry and no missing/extra report, although
`missing = expected` is non-empty and would have been reportable. -/
theorem c2_counterexample :
    (test_list_tools [] emptyResults).1 = false ∧
    (test_list_tools [] emptyResults).2.failed = 1 ∧
    (test_list_tools [] emptyResults).2.errors = [strOf "Tool count: Expected 18 tools, got 0"] ∧
    missingOf EXPECTED_TOOLS [] = EXPECTED_TOOLS ∧
    extraOf EXPECTED_TOOLS [] = [] := by
  decide

/-- Claim C2 (amended): on any cardinality mismatch `test_list_tools`
records exactly one `Tool count` failure reporting both counts and
returns failure immediately; the missing/extra set difference is computed
only when the counts agree, so an empty advertised catalog fails with the
count-mismatch entry alone. -/
theorem c2_count_mismatch_aborts (tools : List Str) (r : TestResults)
    (h : tools.length ≠ EXPECTED_TOOLS.length) :
    (test_list_tools tools r).1 = false ∧
    (test_list_tools tools r).2.passed = r.passed ∧
    (test_list_tools tools r).2.failed = r.failed + 1 ∧
    (test_list_tools tools r).2.errors = r.errors ++
      [strOf "Tool count" ++ strOf ": " ++
        (strOf "Expected " ++ natToChars EXPECTED_TOOLS.length
          ++ strOf " tools, got " ++ natToChars tools.length)] := by
  simp [test_list_tools, h, logTest]

/-- Witness for C2 at a one-name advertised catalog. -/
theorem c2_witness :
    (test_list_tools [strOf "list_folders"] emptyResults).1 = false ∧
    (test_list_tools [strOf "list_folders"] emptyResults).2.passed = emptyResults.passed ∧
    (test_list_tools [strOf "list_folders"] emptyResults).2.failed = emptyResults.failed + 1 ∧
    (test_list_tools [strOf "list_folders"] emptyResults).2.errors = emptyResults.errors ++
      [strOf "Tool count" ++ strOf ": " ++
        (strOf "Expected " ++ natToChars EXPECTED_TOOLS.length
          ++ strOf " tools, got " ++ natToChars [strOf "list_folders"].length)] :=
  c2_count_mismatch_aborts [strOf "list_folders"] emptyResults (by decide)

/-- Claim C5 counterexample: with expected and advertised both the
singleton catalog `a`, missing and extra are both empty, so their union
misses the member of E ∪ A — they are not complements of each other
relative to E ∪ A as the claim states. -/
theorem c5_counterexample :
    missingOf [strOf "a"] [strOf "a"] = [] ∧
    extraOf [strOf "a"] [strOf "a"] = [] ∧
    ¬ (∀ x : Str, (x ∈ missingOf [strOf "a"] [strOf "a"] ∨ x ∈ extraOf [strOf "a"] [strOf "a"]) ↔
        (x ∈ ([strOf "a"] : List Str) ∨ x ∈ ([strOf "a"] : List Str))) := by
  refine ⟨by decide, by decide, fun hall => ?_⟩
  have h := (hall (strOf "a")).mpr (Or.inl (by decide))
  exact absurd h (by decide)

/-- A list fails the `elem` test iff the element is not a member. -/
theorem elem_false_iff (a : Str) (l : List Str) : List.elem a l = false ↔ a ∉ l := by
  constructor
  · intro h hmem
    have ht : List.elem a l = true := List.elem_iff.mpr hmem
    rw [h] at ht
    exact Bool.false_ne_true ht
  · intro h
    cases he : List.elem a l
    · rfl
    · exact absurd (List.elem_iff.mp he) h

/-- Claim C5 (amended): for all expected sets E and advertised sets A,
`missing = E − A` and `extra = A − E` are disjoint and their union is the
symmetric difference of E and A, that is E ∪ A with E ∩ A removed. -/
theorem c5_missing_extra_symmdiff (E A : List Str) (x : Str) :
    (x ∈ missingOf E A → x ∉ extraOf E A) ∧
    ((x ∈ missingOf E A ∨ x ∈ extraOf E A) ↔ ((x ∈ E ∨ x ∈ A) ∧ ¬ (x ∈ E ∧ x ∈ A))) := by
  simp only [missingOf, extraOf, List.mem_filter, Bool.not_eq_true', List.contains,
    elem_false_iff]
  tauto

/-- Witness for C5: disjointness applied at a concrete expected set,
advertised set and name. -/
theorem c5_witness : strOf "a" ∉ extraOf [strOf "a"] ([] : List Str) :=
  (c5_missing_extra_symmdiff [strOf "a"] [] (strOf "a")).1 (by decide)

/-- The embedded substring test agrees with list-infix containment. -/
theorem hasSubstr_iff (n : Str) : ∀ h : Str, hasSubstr n h = true ↔ n <:+: h := by
  intro h
  induction h with
  | nil =>
    simp [hasSubstr, List.isEmpty_iff, List.infix_nil]
  | cons c cs ih =>
    simp only [hasSubstr, Bool.or_eq_true, List.isPrefixOf_iff_prefix, ih,
      List.infix_cons_iff]

/-- Lower-casing preserves substring containment. -/
theorem hasSubstr_lower (n h : Str) (hs : hasSubstr n h = true) :
    hasSubstr (lowerStr n) (lowerStr h) = true := by
  rw [hasSubstr_iff] at hs ⊢
  exact hs.map asciiLower

/-- Substring containment is transitive. -/
theorem hasSubstr_trans (a b c : Str) (h₁ : hasSubstr a b = true) (h₂ : hasSubstr b c = true) :
    hasSubstr a c = true := by
  rw [hasSubstr_iff] at h₁ h₂ ⊢
  exact h₁.trans h₂

/-- Claim C9: an exception from the `list_accounts` connectivity call is
recorded as a pass exactly when its message contains `account`
case-insensitively (the case-sensitive `No accounts configured` disjunct
of the source is subsumed by that test), and as a failure otherwise; the
pass and fail branches log under their source names. -/
theorem c9_account_soft_pass (msg : Str) (r : TestResults) :
    ((simpleToolCallOnExc msg r).1 = true ↔
      hasSubstr (strOf "account") (lowerStr msg) = true) ∧
    (hasSubstr (strOf "account") (lowerStr msg) = true →
      (simpleToolCallOnExc msg r).2 = logTest (strOf "list_accounts tool call") true [] r) ∧
    (hasSubstr (strOf "account") (lowerStr msg) = false →
      (simpleToolCallOnExc msg r).1 = false ∧
      (simpleToolCallOnExc msg r).2 = logTest (strOf "Simple tool call") false msg r) := by
  have key : hasSubstr (strOf "No accounts configured") msg = true →
      hasSubstr (strOf "account") (lowerStr msg) = true := by
    intro hs
    have h1 : hasSubstr (lowerStr (strOf "No accounts configured")) (lowerStr msg) = true :=
      hasSubstr_lower _ _ hs
    have h2 : hasSubstr (strOf "account") (lowerStr (strOf "No accounts configured")) = true := by
      decide
    exact hasSubstr_trans _ _ _ h2 h1
  refine ⟨?_, ?_, ?_⟩
  · constructor
    · intro hpass
      by_cases hno : hasSubstr (strOf "No accounts configured") msg = true
      · exact key hno
      · by_cases hacc : hasSubstr (strOf "account") (lowerStr msg) = true
        · exact hacc
        · simp [simpleToolCallOnExc, hno, hacc] at hpass
    · intro hacc
      simp [simpleToolCallOnExc, hacc]
  · intro hacc
    simp [simpleToolCallOnExc, hacc]
  · intro hacc
    have hno : hasSubstr (strOf "No accounts configured") msg = false := by
      cases hn : hasSubstr (strOf "No accounts configured") msg
      · rfl
      · rw [key hn] at hacc
        exact absurd hacc (by simp)
    simp [simpleToolCallOnExc, hno, hacc]

/-- Witness for C9 at the message `No accounts configured` and at an
unrelated message. -/
theorem c9_witness :
    (simpleToolCallOnExc (strOf "No accounts configured") emptyResults).2 =
      logTest (strOf "list_accounts tool call") true [] emptyResults ∧
    (simpleToolCallOnExc (strOf "connection refused") emptyResults).1 = false :=
  ⟨(c9_account_soft_pass (strOf "No accounts configured") emptyResults).2.1 (by decide),
   ((c9_account_soft_pass (strOf "connection refused") emptyResults).2.2 (by decide)).1⟩

/-- Per-tool independence of `test_tool_schemas`: the verdict is the
conjunction of the per-tool verdicts, every failing tool contributes
exactly its own error entry in order, and the counters grow by the number
of failing and passing tools respectively — no tool's outcome depends on
another's. -/
theorem test_tool_schemas_spec (ts : List Tool) : ∀ r : TestResults,
    (test_tool_schemas ts r).1 = ts.all (fun t => (schemaVerdict t).isNone) ∧
    (test_tool_schemas ts r).2.errors = r.errors ++ ts.filterMap (fun t =>
      (schemaVerdict t).map (fun e => strOf "Schema: " ++ t.name ++ strOf ": " ++ e)) ∧
    (test_tool_schemas ts r).2.failed =
      r.failed + (ts.filter (fun t => (schemaVerdict t).isSome)).length ∧
    (test_tool_schemas ts r).2.passed =
      r.passed + (ts.filter (fun t => (schemaVerdict t).isNone)).length := by
  induction ts with
  | nil =>
    intro r
    simp [test_tool_schemas]
  | cons t ts ih =>
    intro r
    cases hv : schemaVerdict t with
    | none =>
      have hc : schemaCheckTool t r = (true, { r with passed := r.passed + 1 }) := by
        simp [schemaCheckTool, hv, logTest]
      obtain ⟨i1, i2, i3, i4⟩ := ih { r with passed := r.passed + 1 }
      refine ⟨?_, ?_, ?_, ?_⟩ <;>
        simp [test_tool_schemas, hc, i1, i2, i3, i4, hv, List.filter_cons,
          List.filterMap_cons] <;> omega
    | some e =>
      have hc : schemaCheckTool t r = (false,
          { r with failed := r.failed + 1,
                   errors := r.errors ++ [strOf "Schema: " ++ t.name ++ strOf ": " ++ e] }) := by
        simp [schemaCheckTool, hv, logTest]
      obtain ⟨i1, i2, i3, i4⟩ := ih { r with failed := r.failed + 1, errors := r.errors ++ [strOf "Schema: " ++ t.name ++ strOf ": " ++ e] }
      simp only [List.append_assoc] at i1 i2 i3 i4
      refine ⟨?_, ?_, ?_, ?_⟩ <;>
        simp [test_tool_schemas, hc, i1, i2, i3, i4, hv, List.filter_cons,
          List.filterMap_cons, List.append_assoc] <;> omega

/-- Claim C4: schema validation judges every advertised tool independently
— one malformed schema never stops the rest from being checked — and in
the scenario where all 18 expected names are advertised with exactly one
schema lacking the `properties` key, the catalog check passes with no new
error while schema validation fails recording exactly one failure naming
that tool; every other tool is still checked and logged as passing. -/
theorem c4_one_bad_schema (pre post : List Tool) (t0 : Tool) (r : TestResults)
    (hlen : ((pre ++ t0 :: post).map Tool.name).length = EXPECTED_TOOLS.length)
    (hmiss : missingOf EXPECTED_TOOLS ((pre ++ t0 :: post).map Tool.name) = [])
    (hextra : extraOf EXPECTED_TOOLS ((pre ++ t0 :: post).map Tool.name) = [])
    (hok : ∀ t ∈ pre ++ post, schemaVerdict t = none)
    (hbad : schemaVerdict t0 = some (strOf "Missing properties")) :
    (test_list_tools ((pre ++ t0 :: post).map Tool.name) r).1 = true ∧
    (test_list_tools ((pre ++ t0 :: post).map Tool.name) r).2.errors = r.errors ∧
    (test_tool_schemas (pre ++ t0 :: post) r).1 = false ∧
    (test_tool_schemas (pre ++ t0 :: post) r).2.errors =
      r.errors ++ [strOf "Schema: " ++ t0.name ++ strOf ": " ++ strOf "Missing properties"] ∧
    (test_tool_schemas (pre ++ t0 :: post) r).2.failed = r.failed + 1 ∧
    (test_tool_schemas (pre ++ t0 :: post) r).2.passed = r.passed + (pre.length + post.length) := by
  have hokpre : ∀ t ∈ pre, schemaVerdict t = none := fun t ht =>
    hok t (List.mem_append.mpr (Or.inl ht))
  have hokpost : ∀ t ∈ post, schemaVerdict t = none := fun t ht =>
    hok t (List.mem_append.mpr (Or.inr ht))
  obtain ⟨h1, h2, h3, h4⟩ := test_tool_schemas_spec (pre ++ t0 :: post) r
  simp only [List.map_append, List.map_cons, List.length_append, List.length_map,
    List.length_cons] at hlen hmiss hextra
  refine ⟨?_, ?_, ?_, ?_, ?_, ?_⟩
  · simp [test_list_tools, hlen, hmiss, hextra]
  · simp [test_list_tools, hlen, hmiss, hextra, logTest]
  · rw [h1]
    simp only [List.all_append, List.all_cons, hbad, Option.isNone_some]
    simp
  · rw [h2]
    have hpre : pre.filterMap (fun t =>
        (schemaVerdict t).map (fun e => strOf "Schema: " ++ t.name ++ strOf ": " ++ e)) = [] := by
      rw [List.filterMap_eq_nil]
      intro t ht
      simp [hokpre t ht]
    have hpost : post.filterMap (fun t =>
        (schemaVerdict t).map (fun e => strOf "Schema: " ++ t.name ++ strOf ": " ++ e)) = [] := by
      rw [List.filterMap_eq_nil]
      intro t ht
      simp [hokpost t ht]
    simp only [List.append_assoc] at hpre hpost
    simp [List.filterMap_append, List.filterMap_cons, hbad, hpre, hpost, List.append_assoc]
  · rw [h3]
    have hpre : pre.filter (fun t => (schemaVerdict t).isSome) = [] := by
      rw [List.filter_eq_nil]
      intro t ht
      simp [hokpre t ht]
    have hpost : post.filter (fun t => (schemaVerdict t).isSome) = [] := by
      rw [List.filter_eq_nil]
      intro t ht
      simp [hokpost t ht]
    simp [List.filter_append, List.filter_cons, hbad, hpre, hpost]
  · rw [h4]
    have hpre : pre.filter (fun t => (schemaVerdict t).isNone) = pre :=
      List.filter_eq_self.mpr (fun t ht => by simp [hokpre t ht])
    have hpost : post.filter (fun t => (schemaVerdict t).isNone) = post :=
      List.filter_eq_self.mpr (fun t ht => by simp [hokpost t ht])
    simp [List.filter_append, List.filter_cons, hbad, hpre, hpost]

/-- Witness for C4: the 18 expected names advertised, with the `expunge`
schema lacking `properties`; exactly one failure names that tool. -/
theorem c4_witness :
    (test_list_tools ((scenarioPre ++ badSchemaTool :: scenarioPost).map Tool.name) emptyResults).1 = true ∧
    (test_tool_schemas (scenarioPre ++ badSchemaTool :: scenarioPost) emptyResults).2.errors =
      [strOf "Schema: " ++ strOf "expunge" ++ strOf ": " ++ strOf "Missing properties"] ∧
    (test_tool_schemas (scenarioPre ++ badSchemaTool :: scenarioPost) emptyResults).2.failed = 1 ∧
    (test_tool_schemas (scenarioPre ++ badSchemaTool :: scenarioPost) emptyResults).2.passed = 17 := by
  have h := c4_one_bad_schema scenarioPre scenarioPost badSchemaTool emptyResults
    (by decide) (by decide) (by decide) (by decide) (by decide)
  refine ⟨h.1, ?_, ?_, ?_⟩
  · have := h.2.2.2.1
    simpa [emptyResults, badSchemaTool] using this
  · have := h.2.2.2.2.1
    simpa [emptyResults] using this
  · have := h.2.2.2.2.2
    simpa [emptyResults, scenarioPre, scenarioPost] using this

/-- `joinLines` on the empty line list. -/
theorem joinLines_nil : joinLines [] = [] := rfl

/-- `joinLines` on a single line. -/
theorem joinLines_single (l : Str) : joinLines [l] = l := by
  simp [joinLines, List.intercalate]

/-- `joinLines` on two or more lines inserts one newline after the first
line. -/
theorem joinLines_cons₂ (l m : Str) (ls : List Str) :
    joinLines (l :: m :: ls) = l ++ '\n' :: joinLines (m :: ls) := by
  simp [joinLines, List.intercalate, List.intersperse]

/-- `splitLines` never returns the empty list of lines. -/
theorem splitLines_ne_nil (s : Str) : splitLines s ≠ [] := by
  cases s with
  | nil => simp [splitLines]
  | cons c cs =>
    simp only [splitLines]
    split
    · simp
    · cases h : splitLines cs <;> simp

/-- Splitting a newline-free line glued by a newline onto a remainder
peels off exactly that line. -/
theorem splitLines_append (tag rest : Str) (h : '\n' ∉ tag) :
    splitLines (tag ++ '\n' :: rest) = tag :: splitLines rest := by
  induction tag with
  | nil => simp [splitLines]
  | cons c cs ih =>
    have hc : ¬ c = '\n' := fun e => h (e ▸ List.mem_cons_self c cs)
    have hcs : '\n' ∉ cs := fun m => h (List.mem_cons_of_mem c m)
    simp only [List.cons_append, splitLines, if_neg hc, List.append_eq, ih hcs]

/-- Rejoining the split of any text restores the text. -/
theorem joinLines_splitLines (s : Str) : joinLines (splitLines s) = s := by
  induction s with
  | nil => simp [splitLines, joinLines_single]
  | cons c cs ih =>
    by_cases hc : c = '\n'
    · subst hc
      rw [show splitLines ('\n' :: cs) = [] :: splitLines cs from by simp [splitLines]]
      cases h : splitLines cs with
      | nil => exact absurd h (splitLines_ne_nil cs)
      | cons l ls =>
        rw [joinLines_cons₂, ← h, ih]
        simp
    · simp only [splitLines, if_neg hc]
      cases h : splitLines cs with
      | nil => exact absurd h (splitLines_ne_nil cs)
      | cons l ls =>
        cases ls with
        | nil =>
          have hl : l = cs := by
            rw [h] at ih
            simpa [joinLines_single] using ih
          simp [joinLines_single, hl]
        | cons m ms =>
          rw [h] at ih
          rw [joinLines_cons₂] at ih
          rw [joinLines_cons₂]
          simp only [List.cons_append]
          rw [ih]

/-- A newline-free text splits into the single line it is. -/
theorem splitLines_no_newline (l : Str) (h : '\n' ∉ l) : splitLines l = [l] := by
  induction l with
  | nil => rfl
  | cons c cs ih =>
    have hc : ¬ c = '\n' := fun e => h (e ▸ List.mem_cons_self c cs)
    have hcs : '\n' ∉ cs := fun m => h (List.mem_cons_of_mem c m)
    simp only [splitLines, if_neg hc, ih hcs]

/-- Splitting the join of a non-empty list of newline-free lines restores
the lines. -/
theorem splitLines_joinLines (ls : List Str) (hne : ls ≠ [])
    (h : ∀ l ∈ ls, '\n' ∉ l) : splitLines (joinLines ls) = ls := by
  induction ls with
  | nil => exact absurd rfl hne
  | cons l ls ih =>
    cases ls with
    | nil =>
      rw [joinLines_single]
      exact splitLines_no_newline l (h l (List.mem_cons_self l []))
    | cons m ms =>
      rw [joinLines_cons₂,
        splitLines_append l _ (h l (List.mem_cons_self l (m :: ms))),
        ih (by simp) (fun x hx => h x (List.mem_cons_of_mem l hx))]

/-- Claim C3: for a chatbot response made of a leading provider-tag line
followed by remaining text, the provider-tag line is removed before
extraction — its digits are never selected — and the extracted value is
the first word-bounded digit run of the remaining text; when the
remaining text holds exactly one digit run, that run's integer value is
returned, and when it holds none the extraction yields no value and the
check fails. -/
theorem c3_leading_provider_line (tag rest n : Str)
    (htag : List.isPrefixOf providerTag tag = true)
    (hnl : '\n' ∉ tag)
    (hkeep : ∀ l ∈ splitLines rest, keepLine l = true) :
    (findNumbers rest = [n] →
      extractChatbotCount (tag ++ '\n' :: rest) = some (digitsToNat n)) ∧
    (findNumbers rest = [] →
      extractChatbotCount (tag ++ '\n' :: rest) = none) := by
  have hstrip : stripProvider (tag ++ '\n' :: rest) = rest := by
    unfold stripProvider
    rw [splitLines_append tag rest hnl]
    have hk : keepLine tag = false := by simp [keepLine, htag]
    rw [List.filter_cons_of_neg (by simp [hk]),
      List.filter_eq_self.mpr hkeep, joinLines_splitLines]
  constructor
  · intro hone
    simp [extractChatbotCount, hstrip, hone]
  · intro hnone
    simp [extractChatbotCount, hstrip, hnone]

/-- Witness for C3: a provider-tag line carrying digits, a body with the
single count 42. -/
theorem c3_witness :
    extractChatbotCount
        (strOf "[Provider: gpt4-v2]" ++ '\n' :: strOf "You have 42 emails.") =
      some (digitsToNat (strOf "42")) :=
  (c3_leading_provider_line (strOf "[Provider: gpt4-v2]") (strOf "You have 42 emails.")
    (strOf "42") (by decide) (by decide) (by decide)).1 (by decide)

/-- Claim C10: dropping lines that start with the provider tag happens
wherever the line occurs, not only at the front: inserting a provider-tag
line at any position of a line list — also after the content — leaves the
extracted integer unchanged, so its digits never contribute. -/
theorem c10_provider_line_anywhere (ls₁ ls₂ : List Str) (tag : Str)
    (htag : List.isPrefixOf providerTag tag = true)
    (hnl : ∀ l ∈ ls₁ ++ ls₂, '\n' ∉ l)
    (htagnl : '\n' ∉ tag) :
    extractChatbotCount (joinLines (ls₁ ++ tag :: ls₂)) =
      extractChatbotCount (joinLines (ls₁ ++ ls₂)) := by
  have hk : keepLine tag = false := by simp [keepLine, htag]
  cases hcase : ls₁ ++ ls₂ with
  | nil =>
    have h1 : ls₁ = [] := (List.append_eq_nil.mp hcase).1
    have h2 : ls₂ = [] := (List.append_eq_nil.mp hcase).2
    subst h1
    subst h2
    have hstrip : stripProvider (joinLines [tag]) = [] := by
      unfold stripProvider
      rw [joinLines_single, splitLines_no_newline tag htagnl,
        List.filter_cons_of_neg (by simp [hk])]
      rfl
    simp [extractChatbotCount, hstrip]
    decide
  | cons m ms =>
    have hne : ls₁ ++ ls₂ ≠ [] := by rw [hcase]; simp
    have hne' : ls₁ ++ tag :: ls₂ ≠ [] := by cases ls₁ <;> simp
    have hnltag : ∀ l ∈ ls₁ ++ tag :: ls₂, '\n' ∉ l := by
      intro l hl
      rcases List.mem_append.mp hl with hin | hin
      · exact hnl l (List.mem_append.mpr (Or.inl hin))
      · rcases List.mem_cons.mp hin with hin | hin
        · exact hin ▸ htagnl
        · exact hnl l (List.mem_append.mpr (Or.inr hin))
    have heq : stripProvider (joinLines (ls₁ ++ tag :: ls₂)) =
        stripProvider (joinLines (ls₁ ++ ls₂)) := by
      unfold stripProvider
      rw [splitLines_joinLines _ hne' hnltag, splitLines_joinLines _ hne hnl,
        List.filter_append, List.filter_append,
        List.filter_cons_of_neg (by simp [hk])]
    unfold extractChatbotCount
    rw [heq, hcase]

/-- Witness for C10: a trailing provider-tag line carrying the digits 99
does not disturb the extracted count. -/
theorem c10_witness :
    extractChatbotCount
        (joinLines [strOf "You have 42 emails.", strOf "[Provider: model 99]"]) =
      extractChatbotCount (joinLines [strOf "You have 42 emails."]) :=
  c10_provider_line_anywhere [strOf "You have 42 emails."] [] (strOf "[Provider: model 99]")
    (by decide) (by decide) (by decide)

/-- Claim C7: on every path of `run_all_tests` — initialization failure
included — the returned harness is the result of applying `cleanup` to
the state the run reached, so teardown executes before the run returns;
`cleanup` swallows any exception from closing the stack instead of
propagating it; and on a session that is already closed or was never
opened `cleanup` is a safe no-op. -/
theorem c7_cleanup_every_path (initResult acloseResult : Except Str Unit)
    (checks : List CheckFn) (h : Harness) :
    (∃ hmid : Harness, (run_all_tests initResult checks acloseResult h).2 =
      cleanup acloseResult hmid) ∧
    (∀ (e : Str) (h₀ : Harness), cleanup (Except.error e) h₀ = h₀) ∧
    (∀ h₀ : Harness, h₀.sessionOpen = false → cleanup acloseResult h₀ = h₀) := by
  refine ⟨?_, ?_, ?_⟩
  · cases initResult with
    | error e => exact ⟨h, rfl⟩
    | ok u => exact ⟨_, rfl⟩
  · intro e h₀
    rfl
  · intro h₀ hclosed
    cases acloseResult with
    | error e => rfl
    | ok u =>
      cases h₀
      simp_all [cleanup]

/-- Witness for C7: cleanup on a never-opened session leaves it
unchanged. -/
theorem c7_witness :
    cleanup (Except.ok ()) ⟨emptyResults, false⟩ = ⟨emptyResults, false⟩ :=
  (c7_cleanup_every_path (Except.ok ()) (Except.ok ()) [] ⟨emptyResults, false⟩).2.2
    ⟨emptyResults, false⟩ rfl

/-- Replaying a check's `log_test` calls adds one pass per passing step
and, per failing step, one failure together with one error entry. -/
theorem appliesLog_spec (steps : List LogStep) : ∀ r : TestResults,
    (appliesLog steps r).passed = r.passed + stepPasses steps ∧
    (appliesLog steps r).failed = r.failed + stepFailures steps ∧
    (appliesLog steps r).errors.length = r.errors.length + stepFailures steps := by
  induction steps with
  | nil =>
    intro r
    simp [appliesLog, stepPasses, stepFailures]
  | cons s ss ih =>
    intro r
    obtain ⟨i1, i2, i3⟩ := ih (applyStep r s)
    have hstep : appliesLog (s :: ss) r = appliesLog ss (applyStep r s) := rfl
    cases hb : s.2.1 with
    | true =>
      simp only [applyStep, logTest, hb, if_true, List.append_assoc] at i1 i2 i3
      refine ⟨?_, ?_, ?_⟩ <;>
        simp [hstep, applyStep, logTest, hb, i1, i2, i3, stepPasses, stepFailures,
          List.filter_cons, List.append_assoc] <;> omega
    | false =>
      simp only [applyStep, logTest, hb, if_false, Bool.false_eq_true,
        List.append_assoc] at i1 i2 i3
      refine ⟨?_, ?_, ?_⟩ <;>
        simp [hstep, applyStep, logTest, hb, i1, i2, i3, stepPasses, stepFailures,
          List.filter_cons, List.append_assoc] <;> omega

/-- The gathered suite over source-shaped checks: every check's steps are
replayed regardless of its siblings, raised exceptions are added to the
failed counter afterwards, and only logged failures reach the error
list. -/
theorem runSuite_spec (cs : List (List LogStep × Bool)) : ∀ r : TestResults,
    (runSuite cs r).passed = r.passed + (cs.map (fun c => stepPasses c.1)).sum ∧
    (runSuite cs r).failed = r.failed + (cs.map (fun c => stepFailures c.1)).sum +
      (cs.filter (fun c => c.2)).length ∧
    (runSuite cs r).errors.length =
      r.errors.length + (cs.map (fun c => stepFailures c.1)).sum := by
  induction cs with
  | nil =>
    intro r
    simp [runSuite, gatherResults, bumpFailures]
  | cons c cs ih =>
    intro r
    obtain ⟨a1, a2, a3⟩ := appliesLog_spec c.1 r
    obtain ⟨i1, i2, i3⟩ := ih (appliesLog c.1 r)
    have hunfold : runSuite (c :: cs) r =
        { runSuite cs (appliesLog c.1 r) with
          failed := (runSuite cs (appliesLog c.1 r)).failed + (if c.2 then 1 else 0) } := by
      simp only [runSuite, List.map_cons, gatherResults, loggedCheck, bumpFailures]
      cases hq : gatherResults (cs.map loggedCheck) (appliesLog c.1 r) with
      | mk q1 q2 =>
        cases q1
        simp [Nat.add_assoc]
    refine ⟨?_, ?_, ?_⟩ <;> cases hc2 : c.2 <;>
      simp [hunfold, i1, i2, i3, a1, a2, a3, List.filter_cons, hc2] <;> omega

/-- Claim C8 counterexample: a check that raises instead of returning is
counted in the failed counter but leaves the error list untouched, so at
report time the error list has fewer entries than the failed count and
the failing check never appears in the report. -/
theorem c8_counterexample :
    (runSuite [([], true)] emptyResults).failed = 1 ∧
    (runSuite [([], true)] emptyResults).errors = [] := by
  decide

/-- Claim C8 (amended): an unexpected exception raised by a check is
caught and counted as a failure without aborting sibling checks — every
check's logged steps are replayed in full — but it is not appended to the
error list; the error list grows exactly by the failures recorded through
`log_test`, so its length equals the failed count at report time exactly
when no check raised. -/
theorem c8_error_accounting (cs : List (List LogStep × Bool)) (r : TestResults) :
    (runSuite cs r).passed = r.passed + (cs.map (fun c => stepPasses c.1)).sum ∧
    (runSuite cs r).failed = r.failed + (cs.map (fun c => stepFailures c.1)).sum +
      (cs.filter (fun c => c.2)).length ∧
    (runSuite cs r).errors.length =
      r.errors.length + (cs.map (fun c => stepFailures c.1)).sum ∧
    ((cs.filter (fun c => c.2)).length = 0 → r.errors.length = r.failed →
      (runSuite cs r).errors.length = (runSuite cs r).failed) := by
  obtain ⟨h1, h2, h3⟩ := runSuite_spec cs r
  refine ⟨h1, h2, h3, fun hz hb => ?_⟩
  rw [h3, h2, hz, hb]
  omega

/-- Witness for C8: one check with a single logged failure and no raised
exception keeps the error list and the failed counter in step. -/
theorem c8_witness :
    (runSuite [([(strOf "t", false, strOf "boom")], false)] emptyResults).errors.length =
      (runSuite [([(strOf "t", false, strOf "boom")], false)] emptyResults).failed :=
  (c8_error_accounting [([(strOf "t", false, strOf "boom")], false)] emptyResults).2.2.2
    (by decide) (by decide)
